import Mathlib

/-!
Verification of the sales-analytics aggregation core
(`src/utils/data_processor.py`) against its specification.

The Python transaction dictionaries are embedded as a `Tx` structure.
`Quantity` is `Option ℤ` (the loader stores an `int` or `None`) and
`UnitPrice` is `Option ℚ` (a `float` or `None`); monetary arithmetic is
modelled with exact rationals, and Python's `round(x, 2)` is modelled by
`round2`.  Python dictionaries are embedded as association lists that keep
insertion order, and Python's stable `sorted` as `List.insertionSort` with
the corresponding (reflexive-on-ties) relation.
-/

set_option maxRecDepth 8000

namespace SalesAnalytics

/-- One transaction record as produced by `load_cleaned_transactions`. -/
structure Tx where
  TransactionID : String
  Date : String
  ProductID : String
  ProductName : String
  Quantity : Option ℤ
  UnitPrice : Option ℚ
  CustomerID : String
  Region : String
  Amount : Option ℚ
deriving DecidableEq, Repr

/-- Helper to build concrete transactions concisely. -/
def mkTx (date pname cid region : String) (q : Option ℤ) (p : Option ℚ) : Tx :=
  ⟨"T1", date, "P1", pname, q, p, cid, region, none⟩

/-- The `isinstance(qty, int) and isinstance(price, (int, float))` type test. -/
def condOk (t : Tx) : Bool :=
  t.Quantity.isSome && t.UnitPrice.isSome

/-- `qty * float(price)` for a record passing `condOk`. -/
def amt (t : Tx) : ℚ :=
  ((t.Quantity.getD 0 : ℤ) : ℚ) * t.UnitPrice.getD 0

/-- Python's `round(x, 2)`. -/
def round2 (x : ℚ) : ℚ :=
  (round (x * 100) : ℚ) / 100

/-- Keep-condition of the product-keyed loops (`top_selling_products`,
`low_performing_products`): non-empty name and numeric fields. -/
def condProd (t : Tx) : Bool :=
  (t.ProductName != "") && condOk t

/-- Keep-condition of the `customer_analysis` loop. -/
def condCust (t : Tx) : Bool :=
  (t.CustomerID != "") && condOk t

/-- Keep-condition of the `daily_sales_trend` loop. -/
def condDay (t : Tx) : Bool :=
  (t.Date != "") && condOk t

/-- Grouping key used by `region_wise_sales`: `(t.get('Region') or '').strip()`. -/
def regionKey (t : Tx) : String := t.Region.trim

/-- Grouping key used by the product aggregations. -/
def prodKey (t : Tx) : String := t.ProductName

/-- Grouping key used by `customer_analysis`. -/
def custKey (t : Tx) : String := t.CustomerID

/-- Grouping key used by `daily_sales_trend`. -/
def dayKey (t : Tx) : String := t.Date

/-- Association-list lookup (embeds Python `dict` access). -/
def lookupV {V : Type} (k : String) : List (String × V) → Option V
  | [] => none
  | (k', v) :: rest => if k' = k then some v else lookupV k rest

/-- Update the entry at key `k` with `f`, creating it from `dflt` at the end
when absent (embeds `agg.setdefault`-style dictionary update, keeping
insertion order). -/
def upsert {V : Type} (k : String) (f : V → V) (dflt : V) : List (String × V) → List (String × V)
  | [] => [(k, f dflt)]
  | (k', v) :: rest => if k' = k then (k', f v) :: rest else (k', v) :: upsert k f dflt rest

/-- One iteration of a grouping loop: skip the record unless `cond` holds,
otherwise update the bucket at `key t`. -/
def gStep {V : Type} (cond : Tx → Bool) (key : Tx → String) (add : Tx → V → V) (dflt : V)
    (ag : List (String × V)) (t : Tx) : List (String × V) :=
  if cond t then upsert (key t) (add t) dflt ag else ag

/-- The common grouping loop of the aggregators: a dictionary built by
iterating over the transactions. -/
def groupFold {V : Type} (cond : Tx → Bool) (key : Tx → String) (add : Tx → V → V) (dflt : V)
    (txs : List Tx) : List (String × V) :=
  txs.foldl (gStep cond key add dflt) []

/-- `set.add`-style insertion into a duplicate-free list. -/
def insertNew (c : String) (l : List String) : List String :=
  if c ∈ l then l else l ++ [c]

/-- Bucket update of `region_wise_sales`: add the amount, bump the count. -/
def addReg (t : Tx) (v : ℚ × ℕ) : ℚ × ℕ :=
  (v.1 + amt t, v.2 + 1)

/-- Bucket update of the product aggregations: add the quantity and the amount. -/
def addProd (t : Tx) (v : ℤ × ℚ) : ℤ × ℚ :=
  (v.1 + t.Quantity.getD 0, v.2 + amt t)

/-- Bucket update of `customer_analysis` (`pick` = product name) and
`daily_sales_trend` (`pick` = customer id): add the amount, bump the count,
and add `pick t` to the auxiliary set when non-empty. -/
def addSpend (pick : Tx → String) (t : Tx) (v : ℚ × ℕ × List String) : ℚ × ℕ × List String :=
  (v.1 + amt t, v.2.1 + 1, if pick t = "" then v.2.2 else insertNew (pick t) v.2.2)

/-- Task 1 — `calculate_total_revenue`. -/
def calculate_total_revenue (txs : List Tx) : ℚ :=
  txs.foldl (fun total t => if condOk t then total + amt t else total) 0

/-- Output row of `region_wise_sales`. -/
structure RegionStat where
  total_sales : ℚ
  transaction_count : ℕ
  percentage : ℚ
deriving DecidableEq, Repr

/-- Result construction of one region row (rounding happens here). -/
def regionStatOf (grand_total : ℚ) (v : ℚ × ℕ) : RegionStat :=
  ⟨round2 v.1, v.2, round2 (if 0 < grand_total then v.1 / grand_total * 100 else 0)⟩

/-- Descending-by-`total_sales` comparison used by `region_wise_sales`. -/
def descBySales (a b : String × ℚ × ℕ) : Prop := b.2.1 ≤ a.2.1

instance : DecidableRel descBySales :=
  fun a b => inferInstanceAs (Decidable (b.2.1 ≤ a.2.1))

/-- Task 2 — `region_wise_sales`. -/
def region_wise_sales (txs : List Tx) : List (String × RegionStat) :=
  let agg := groupFold condOk regionKey addReg (0, 0) txs
  let grand_total := txs.foldl (fun g t => if condOk t then g + amt t else g) 0
  (List.insertionSort descBySales agg).map (fun kv => (kv.1, regionStatOf grand_total kv.2))

/-- Descending-by-quantity comparison used by `top_selling_products`. -/
def descByQty (a b : String × ℤ × ℚ) : Prop := b.2.1 ≤ a.2.1

instance : DecidableRel descByQty :=
  fun a b => inferInstanceAs (Decidable (b.2.1 ≤ a.2.1))

/-- Task 3 — `top_selling_products`.  (`n` defaults to 5 in the CLI.) -/
def top_selling_products (txs : List Tx) (n : ℕ) : List (String × ℤ × ℚ) :=
  let by_product := groupFold condProd prodKey addProd (0, 0) txs
  ((List.insertionSort descByQty by_product).take n).map
    (fun kv => (kv.1, kv.2.1, round2 kv.2.2))

/-- Output row of `customer_analysis`. -/
structure CustStat where
  total_spent : ℚ
  purchase_count : ℕ
  avg_order_value : ℚ
  products_bought : List String
deriving DecidableEq, Repr

/-- Result construction of one customer row (rounding and the
`purchase_count > 0` guard happen here). -/
def custStatOf (v : ℚ × ℕ × List String) : CustStat :=
  ⟨round2 v.1, v.2.1, round2 (if 0 < v.2.1 then v.1 / (v.2.1 : ℚ) else 0),
    List.insertionSort (fun a b : String => a ≤ b) v.2.2⟩

/-- Descending-by-`total_spent` comparison used by `customer_analysis`. -/
def descBySpent (a b : String × ℚ × ℕ × List String) : Prop := b.2.1 ≤ a.2.1

instance : DecidableRel descBySpent :=
  fun a b => inferInstanceAs (Decidable (b.2.1 ≤ a.2.1))

/-- Task 4 — `customer_analysis`. -/
def customer_analysis (txs : List Tx) : List (String × CustStat) :=
  let agg := groupFold condCust custKey (addSpend prodKey) (0, 0, []) txs
  (List.insertionSort descBySpent agg).map (fun kv => (kv.1, custStatOf kv.2))

/-- Output row of `daily_sales_trend`. -/
structure DayStat where
  revenue : ℚ
  transaction_count : ℕ
  unique_customers : ℕ
deriving DecidableEq, Repr

/-- Result construction of one day row. -/
def dayStatOf (v : ℚ × ℕ × List String) : DayStat :=
  ⟨round2 v.1, v.2.1, v.2.2.length⟩

/-- Task 5 — `daily_sales_trend`: group by date, then emit rows in ascending
key order (`sorted(agg.keys())`). -/
def daily_sales_trend (txs : List Tx) : List (String × DayStat) :=
  let agg := groupFold condDay dayKey (addSpend custKey) (0, 0, []) txs
  let ordered_dates := List.insertionSort (fun a b : String => a ≤ b) (agg.map Prod.fst)
  ordered_dates.map (fun dt => (dt, dayStatOf ((lookupV dt agg).getD (0, 0, []))))

/-- Python's `max` over a non-empty list (`listMax [] = 0` is never reached
on the code path that uses it). -/
def listMax : List ℚ → ℚ
  | [] => 0
  | x :: xs => xs.foldl max x

/-- Selection step of `find_peak_sales_day`, operating on the trend map:
empty trend gives the sentinel; otherwise take the maximal revenue, collect
the dates achieving it, and return the smallest such date with its row. -/
def peakFromTrend (trend : List (String × DayStat)) : String × ℚ × ℕ :=
  if trend.isEmpty then ("", 0, 0)
  else
    let max_rev := listMax (trend.map (fun kv => kv.2.revenue))
    let candidates := (trend.filter (fun kv => kv.2.revenue == max_rev)).map Prod.fst
    let best_date := (List.insertionSort (fun a b : String => a ≤ b) candidates).headD ""
    let st := (lookupV best_date trend).getD ⟨0, 0, 0⟩
    (best_date, st.revenue, st.transaction_count)

/-- Task 6 — `find_peak_sales_day`. -/
def find_peak_sales_day (txs : List Tx) : String × ℚ × ℕ :=
  peakFromTrend (daily_sales_trend txs)

/-- Ascending-by-quantity comparison used by `low_performing_products`. -/
def ascByQty (a b : String × ℤ × ℚ) : Prop := a.2.1 ≤ b.2.1

instance : DecidableRel ascByQty :=
  fun a b => inferInstanceAs (Decidable (a.2.1 ≤ b.2.1))

instance : IsTotal (String × ℤ × ℚ) ascByQty :=
  ⟨fun a b => le_total a.2.1 b.2.1⟩

instance : IsTrans (String × ℤ × ℚ) ascByQty :=
  ⟨fun _ _ _ hab hbc => le_trans hab hbc⟩

/-- Task 7 — `low_performing_products`.  (`threshold` defaults to 10 in the CLI.) -/
def low_performing_products (txs : List Tx) (threshold : ℤ) : List (String × ℤ × ℚ) :=
  let by_product := groupFold condProd prodKey addProd (0, 0) txs
  let low := (by_product.filter (fun kv => kv.2.1 < threshold)).map
    (fun kv => (kv.1, kv.2.1, round2 kv.2.2))
  List.insertionSort ascByQty low

/-! ## Specification-side descriptions of the groupings -/

/-- The records of `txs` that land in bucket `k` of the grouping determined
by `cond` and `key`. -/
def gRel (cond : Tx → Bool) (key : Tx → String) (k : String) (txs : List Tx) : List Tx :=
  txs.filter (fun t => cond t && (key t == k))

def regionRel (k : String) (txs : List Tx) : List Tx := gRel condOk regionKey k txs

def regionSum (k : String) (txs : List Tx) : ℚ := ((regionRel k txs).map amt).sum

/-- Sum of the amounts of all records passing the numeric type test. -/
def grandSum (txs : List Tx) : ℚ := ((txs.filter condOk).map amt).sum

def prodRel (nm : String) (txs : List Tx) : List Tx := gRel condProd prodKey nm txs

def prodQty (nm : String) (txs : List Tx) : ℤ :=
  ((prodRel nm txs).map (fun t => t.Quantity.getD 0)).sum

def prodRev (nm : String) (txs : List Tx) : ℚ := ((prodRel nm txs).map amt).sum

def custRel (cid : String) (txs : List Tx) : List Tx := gRel condCust custKey cid txs

def custSpent (cid : String) (txs : List Tx) : ℚ := ((custRel cid txs).map amt).sum

def dayRel (dt : String) (txs : List Tx) : List Tx := gRel condDay dayKey dt txs

def daySum (dt : String) (txs : List Tx) : ℚ := ((dayRel dt txs).map amt).sum

/-- The non-empty customer ids of the records of day `dt`, with multiplicity. -/
def dayCids (dt : String) (txs : List Tx) : List String :=
  ((dayRel dt txs).map custKey).filter (fun c => c != "")

/-- Apply the per-record bucket update over a list of records. -/
def applyRel {V : Type} (add : Tx → V → V) (rel : List Tx) (v : V) : V :=
  rel.foldl (fun v t => add t v) v

/-- The auxiliary-set part of `addSpend`, iterated over a record list. -/
def pickFold (pick : Tx → String) (rel : List Tx) (l : List String) : List String :=
  rel.foldl (fun l t => if pick t = "" then l else insertNew (pick t) l) l

/-- Concrete two-record input used to exercise theorems at a concrete point. -/
def txsW : List Tx :=
  [mkTx "2024-01-01" "Widget" "C1" "North" (some 2) (some 10),
    mkTx "2024-01-01" "Widget" "C2" "South" (some 1) (some 20)]

/-- Concrete input with two days tying at revenue 500. -/
def txsP : List Tx :=
  [mkTx "2024-01-05" "Widget" "C1" "North" (some 1) (some 500),
    mkTx "2024-01-02" "Widget" "C2" "North" (some 1) (some 500)]

/-- Concrete record with a blank (whitespace-only) region. -/
def txR : Tx := mkTx "2024-01-01" "Widget" "C1" "  " (some 1) (some 5)

/-- Concrete well-typed record with every grouping key empty. -/
def t10 : Tx := mkTx "" "" "" "" (some 2) (some 3)

/-! ## Rounding lemmas -/

lemma round2_zero : round2 0 = 0 := by
  simp [round2]

lemma abs_round2_sub (x : ℚ) : |round2 x - x| ≤ 1 / 200 := by
  have h := abs_sub_round (x * 100)
  have hx : round2 x - x = -((x * 100 - (round (x * 100) : ℚ)) / 100) := by
    rw [round2]; ring
  rw [hx, abs_neg, abs_div]
  have h100 : |(100 : ℚ)| = 100 := by norm_num
  rw [h100]
  linarith

lemma sum_round2_sub (l : List ℚ) :
    |(l.map round2).sum - l.sum| ≤ (l.length : ℚ) * (1 / 200) := by
  induction l with
  | nil => simp
  | cons x xs ih =>
    have hx := abs_round2_sub x
    simp only [List.map_cons, List.sum_cons, List.length_cons]
    have hsplit : round2 x + (xs.map round2).sum - (x + xs.sum)
        = (round2 x - x) + ((xs.map round2).sum - xs.sum) := by ring
    rw [hsplit]
    calc |(round2 x - x) + ((xs.map round2).sum - xs.sum)|
        ≤ |round2 x - x| + |(xs.map round2).sum - xs.sum| := abs_add _ _
      _ ≤ 1 / 200 + (xs.length : ℚ) * (1 / 200) := by linarith
      _ = ((xs.length + 1 : ℕ) : ℚ) * (1 / 200) := by push_cast; ring

/-! ## Association-list lemmas -/

lemma lookupV_upsert_self {V : Type} (k : String) (f : V → V) (d : V)
    (l : List (String × V)) :
    lookupV k (upsert k f d l) = some (f ((lookupV k l).getD d)) := by
  induction l with
  | nil => simp [upsert, lookupV]
  | cons kv rest ih =>
    obtain ⟨k', v⟩ := kv
    by_cases h : k' = k
    · subst h; simp [upsert, lookupV]
    · simp [upsert, lookupV, h, ih]

lemma lookupV_upsert_ne {V : Type} {k k' : String} (h : k' ≠ k) (f : V → V) (d : V)
    (l : List (String × V)) :
    lookupV k (upsert k' f d l) = lookupV k l := by
  induction l with
  | nil => simp [upsert, lookupV, h]
  | cons kv rest ih =>
    obtain ⟨k'', v⟩ := kv
    by_cases h2 : k'' = k'
    · subst h2; simp [upsert, lookupV, h]
    · by_cases h3 : k'' = k <;> simp [upsert, lookupV, h2, h3, Ne.symm h, ih]

lemma lookupV_eq_none {V : Type} (k : String) (l : List (String × V)) :
    lookupV k l = none ↔ k ∉ l.map Prod.fst := by
  induction l with
  | nil => simp [lookupV]
  | cons kv rest ih =>
    obtain ⟨k', v⟩ := kv
    by_cases h : k' = k
    · subst h; simp [lookupV]
    · simp [lookupV, h, ih, Ne.symm h]

lemma fst_upsert {V : Type} (k : String) (f : V → V) (d : V) (l : List (String × V)) :
    (upsert k f d l).map Prod.fst =
      if k ∈ l.map Prod.fst then l.map Prod.fst else l.map Prod.fst ++ [k] := by
  induction l with
  | nil => simp [upsert]
  | cons kv rest ih =>
    obtain ⟨k', v⟩ := kv
    by_cases h : k' = k
    · subst h; simp [upsert]
    · simp only [upsert, if_neg h, List.map_cons, ih]
      by_cases h2 : k ∈ rest.map Prod.fst
      · simp [h2, Ne.symm h]
      · simp [h2, Ne.symm h]

lemma nodup_fst_upsert {V : Type} {k : String} {f : V → V} {d : V} {l : List (String × V)}
    (h : (l.map Prod.fst).Nodup) : ((upsert k f d l).map Prod.fst).Nodup := by
  rw [fst_upsert]
  by_cases hk : k ∈ l.map Prod.fst
  · simpa [hk] using h
  · simp [hk, List.nodup_append, h]

lemma mem_iff_lookupV {V : Type} {l : List (String × V)} (h : (l.map Prod.fst).Nodup)
    (k : String) (v : V) : (k, v) ∈ l ↔ lookupV k l = some v := by
  induction l with
  | nil => simp [lookupV]
  | cons kv rest ih =>
    obtain ⟨k', v'⟩ := kv
    simp only [List.map_cons, List.nodup_cons] at h
    obtain ⟨hk, hrest⟩ := h
    by_cases he : k' = k
    · subst he
      rw [lookupV, if_pos rfl]
      constructor
      · intro hmem
        rcases List.mem_cons.mp hmem with heq | hmem2
        · exact congrArg (fun p => some p.2) heq.symm
        · exact absurd (List.mem_map_of_mem Prod.fst hmem2) hk
      · intro hsome
        have hv : v' = v := Option.some.inj hsome
        exact List.mem_cons.mpr (Or.inl (by rw [hv]))
    · rw [lookupV, if_neg he, ← ih hrest]
      simp [List.mem_cons, Prod.mk.injEq, Ne.symm he]

/-! ## Grouping-loop lemmas -/

lemma lookupV_foldl_gStep {V : Type} (cond : Tx → Bool) (key : Tx → String)
    (add : Tx → V → V) (dflt : V) :
    ∀ (txs : List Tx) (init : List (String × V)) (k : String),
      lookupV k (txs.foldl (gStep cond key add dflt) init) =
        match lookupV k init with
        | some v => some (applyRel add (gRel cond key k txs) v)
        | none =>
          if gRel cond key k txs = [] then none
          else some (applyRel add (gRel cond key k txs) dflt) := by
  intro txs
  induction txs with
  | nil =>
    intro init k
    cases h : lookupV k init <;> simp [gRel, applyRel, h]
  | cons t ts ih =>
    intro init k
    simp only [List.foldl_cons]
    rw [ih]
    by_cases hc : cond t = true
    · by_cases hk : key t = k
      · have hstep : gStep cond key add dflt init t = upsert k (add t) dflt init := by
          simp [gStep, hc, hk]
        have hrel : gRel cond key k (t :: ts) = t :: gRel cond key k ts := by
          simp [gRel, List.filter_cons, hc, hk]
        rw [hstep, lookupV_upsert_self, hrel]
        cases h : lookupV k init with
        | some v => simp [h, applyRel]
        | none => simp [h, applyRel]
      · have hstep : gStep cond key add dflt init t = upsert (key t) (add t) dflt init := by
          simp [gStep, hc]
        have hrel : gRel cond key k (t :: ts) = gRel cond key k ts := by
          simp [gRel, List.filter_cons, hk]
        rw [hstep, lookupV_upsert_ne hk, hrel]
    · have hstep : gStep cond key add dflt init t = init := by
        simp [gStep, hc]
      have hrel : gRel cond key k (t :: ts) = gRel cond key k ts := by
        simp [gRel, List.filter_cons, hc]
      rw [hstep, hrel]

lemma lookupV_groupFold {V : Type} (cond : Tx → Bool) (key : Tx → String)
    (add : Tx → V → V) (dflt : V) (txs : List Tx) (k : String) :
    lookupV k (groupFold cond key add dflt txs) =
      if gRel cond key k txs = [] then none
      else some (applyRel add (gRel cond key k txs) dflt) := by
  have h := lookupV_foldl_gStep cond key add dflt txs [] k
  simpa [groupFold, lookupV] using h

lemma nodup_fst_foldl_gStep {V : Type} (cond : Tx → Bool) (key : Tx → String)
    (add : Tx → V → V) (dflt : V) :
    ∀ (txs : List Tx) (init : List (String × V)), (init.map Prod.fst).Nodup →
      ((txs.foldl (gStep cond key add dflt) init).map Prod.fst).Nodup := by
  intro txs
  induction txs with
  | nil => intro init h; simpa using h
  | cons t ts ih =>
    intro init h
    simp only [List.foldl_cons]
    apply ih
    unfold gStep
    by_cases hc : cond t = true
    · simpa [hc] using nodup_fst_upsert h
    · simpa [hc] using h

lemma nodup_fst_groupFold {V : Type} (cond : Tx → Bool) (key : Tx → String)
    (add : Tx → V → V) (dflt : V) (txs : List Tx) :
    ((groupFold cond key add dflt txs).map Prod.fst).Nodup :=
  nodup_fst_foldl_gStep cond key add dflt txs [] (by simp)

lemma mem_map_sort_groupFold {V W : Type} (cond : Tx → Bool) (key : Tx → String)
    (add : Tx → V → V) (dflt : V) (r : (String × V) → (String × V) → Prop) [DecidableRel r]
    (h : V → W) (txs : List Tx) (k : String) (st : W) :
    ((k, st) ∈ (List.insertionSort r (groupFold cond key add dflt txs)).map
        (fun kv => (kv.1, h kv.2))) ↔
      (gRel cond key k txs ≠ [] ∧ st = h (applyRel add (gRel cond key k txs) dflt)) := by
  rw [List.mem_map]
  constructor
  · rintro ⟨⟨k', v⟩, hmem, heq⟩
    obtain ⟨hk1, hst⟩ : k' = k ∧ h v = st := by
      simpa [Prod.mk.injEq] using heq
    have hmem2 : (k', v) ∈ groupFold cond key add dflt txs :=
      (List.perm_insertionSort r _).mem_iff.mp hmem
    have hl : lookupV k' (groupFold cond key add dflt txs) = some v :=
      (mem_iff_lookupV (nodup_fst_groupFold cond key add dflt txs) k' v).mp hmem2
    rw [lookupV_groupFold, hk1] at hl
    by_cases hrel : gRel cond key k txs = []
    · simp [hrel] at hl
    · simp only [if_neg hrel, Option.some.injEq] at hl
      exact ⟨hrel, by rw [← hst, hl]⟩
  · rintro ⟨hrel, rfl⟩
    have hl : lookupV k (groupFold cond key add dflt txs)
        = some (applyRel add (gRel cond key k txs) dflt) := by
      rw [lookupV_groupFold]; simp [hrel]
    have hmem : (k, applyRel add (gRel cond key k txs) dflt)
        ∈ groupFold cond key add dflt txs :=
      (mem_iff_lookupV (nodup_fst_groupFold cond key add dflt txs) k _).mpr hl
    exact ⟨(k, applyRel add (gRel cond key k txs) dflt),
      (List.perm_insertionSort r _).mem_iff.mpr hmem, rfl⟩

/-! ## Characterization of the bucket folds -/

lemma applyRel_addReg :
    ∀ (rel : List Tx) (v : ℚ × ℕ),
      applyRel addReg rel v = (v.1 + (rel.map amt).sum, v.2 + rel.length) := by
  intro rel
  induction rel with
  | nil => intro v; simp [applyRel]
  | cons t ts ih =>
    intro v
    show applyRel addReg ts (addReg t v) = _
    rw [ih]
    simp only [addReg, List.map_cons, List.sum_cons, List.length_cons, Prod.mk.injEq]
    constructor
    · ring
    · omega

lemma applyRel_addProd :
    ∀ (rel : List Tx) (v : ℤ × ℚ),
      applyRel addProd rel v
        = (v.1 + (rel.map (fun t => t.Quantity.getD 0)).sum, v.2 + (rel.map amt).sum) := by
  intro rel
  induction rel with
  | nil => intro v; simp [applyRel]
  | cons t ts ih =>
    intro v
    show applyRel addProd ts (addProd t v) = _
    rw [ih]
    simp only [addProd, List.map_cons, List.sum_cons, Prod.mk.injEq]
    constructor <;> ring

lemma applyRel_addSpend (pick : Tx → String) :
    ∀ (rel : List Tx) (v : ℚ × ℕ × List String),
      applyRel (addSpend pick) rel v
        = (v.1 + (rel.map amt).sum, v.2.1 + rel.length, pickFold pick rel v.2.2) := by
  intro rel
  induction rel with
  | nil => intro v; simp [applyRel, pickFold]
  | cons t ts ih =>
    intro v
    show applyRel (addSpend pick) ts (addSpend pick t v) = _
    rw [ih]
    simp only [addSpend, List.map_cons, List.sum_cons, List.length_cons, Prod.mk.injEq]
    refine ⟨by ring, by omega, ?_⟩
    show pickFold pick ts (if pick t = "" then v.2.2 else insertNew (pick t) v.2.2) = _
    rfl

/-! ## Revenue fold -/

lemma revenue_foldl :
    ∀ (txs : List Tx) (g : ℚ),
      txs.foldl (fun g t => if condOk t then g + amt t else g) g = g + grandSum txs := by
  intro txs
  induction txs with
  | nil => intro g; simp [grandSum]
  | cons t ts ih =>
    intro g
    by_cases hc : condOk t = true
    · simp only [List.foldl_cons, if_pos hc, ih]
      have hg : grandSum (t :: ts) = amt t + grandSum ts := by
        simp [grandSum, List.filter_cons, hc]
      rw [hg]; ring
    · simp only [List.foldl_cons, if_neg hc, ih]
      have hg : grandSum (t :: ts) = grandSum ts := by
        simp [grandSum, List.filter_cons, hc]
      rw [hg]

lemma calculate_total_revenue_eq (txs : List Tx) :
    calculate_total_revenue txs = grandSum txs := by
  have h := revenue_foldl txs 0
  simpa [calculate_total_revenue] using h

/-! ## Sum of raw bucket totals -/

lemma sum_fst_upsert_addReg (t : Tx) (k : String) :
    ∀ (l : List (String × ℚ × ℕ)),
      ((upsert k (addReg t) (0, 0) l).map (fun kv => kv.2.1)).sum
        = (l.map (fun kv => kv.2.1)).sum + amt t := by
  intro l
  induction l with
  | nil => simp [upsert, addReg]
  | cons kv rest ih =>
    obtain ⟨k', v⟩ := kv
    by_cases h : k' = k
    · subst h; simp [upsert, addReg]; ring
    · simp only [upsert, if_neg h, List.map_cons, List.sum_cons, ih]; ring

lemma sum_fst_foldl_addReg :
    ∀ (txs : List Tx) (init : List (String × ℚ × ℕ)),
      ((txs.foldl (gStep condOk regionKey addReg (0, 0)) init).map (fun kv => kv.2.1)).sum
        = (init.map (fun kv => kv.2.1)).sum + grandSum txs := by
  intro txs
  induction txs with
  | nil => intro init; simp [grandSum]
  | cons t ts ih =>
    intro init
    simp only [List.foldl_cons]
    rw [ih]
    by_cases hc : condOk t = true
    · have hstep : gStep condOk regionKey addReg (0, 0) init t
          = upsert (regionKey t) (addReg t) (0, 0) init := by
        simp [gStep, hc]
      rw [hstep, sum_fst_upsert_addReg]
      have hg : grandSum (t :: ts) = amt t + grandSum ts := by
        simp [grandSum, List.filter_cons, hc]
      rw [hg]; ring
    · have hstep : gStep condOk regionKey addReg (0, 0) init t = init := by
        simp [gStep, hc]
      have hg : grandSum (t :: ts) = grandSum ts := by
        simp [grandSum, List.filter_cons, hc]
      rw [hstep, hg]

/-! ## Set-as-list lemmas -/

lemma mem_insertNew (a c : String) (l : List String) :
    a ∈ insertNew c l ↔ a ∈ l ∨ a = c := by
  unfold insertNew
  by_cases h : c ∈ l
  · simp only [if_pos h]
    constructor
    · exact Or.inl
    · rintro (h1 | rfl)
      · exact h1
      · exact h
  · simp [h, List.mem_append]

lemma nodup_insertNew (c : String) {l : List String} (h : l.Nodup) :
    (insertNew c l).Nodup := by
  unfold insertNew
  by_cases hc : c ∈ l
  · simpa [hc] using h
  · simp [hc, List.nodup_append, h]

lemma mem_pickFold (pick : Tx → String) :
    ∀ (rel : List Tx) (l : List String) (c : String),
      c ∈ pickFold pick rel l ↔ c ∈ l ∨ (c ≠ "" ∧ ∃ t ∈ rel, pick t = c) := by
  intro rel
  induction rel with
  | nil => intro l c; simp [pickFold]
  | cons t ts ih =>
    intro l c
    show c ∈ pickFold pick ts (if pick t = "" then l else insertNew (pick t) l) ↔ _
    rw [ih]
    by_cases h : pick t = ""
    · rw [if_pos h]
      constructor
      · rintro (hl | ⟨hc, u, hu, hpu⟩)
        · exact Or.inl hl
        · exact Or.inr ⟨hc, u, List.mem_cons_of_mem t hu, hpu⟩
      · rintro (hl | ⟨hc, u, hu, hpu⟩)
        · exact Or.inl hl
        · rcases List.mem_cons.mp hu with rfl | hu2
          · exact absurd (hpu.symm.trans h) hc
          · exact Or.inr ⟨hc, u, hu2, hpu⟩
    · rw [if_neg h, mem_insertNew]
      constructor
      · rintro ((hl | rfl) | ⟨hc, u, hu, hpu⟩)
        · exact Or.inl hl
        · exact Or.inr ⟨h, t, List.mem_cons_self t ts, rfl⟩
        · exact Or.inr ⟨hc, u, List.mem_cons_of_mem t hu, hpu⟩
      · rintro (hl | ⟨hc, u, hu, hpu⟩)
        · exact Or.inl (Or.inl hl)
        · rcases List.mem_cons.mp hu with rfl | hu2
          · exact Or.inl (Or.inr hpu.symm)
          · exact Or.inr ⟨hc, u, hu2, hpu⟩

lemma nodup_pickFold (pick : Tx → String) :
    ∀ (rel : List Tx) (l : List String), l.Nodup → (pickFold pick rel l).Nodup := by
  intro rel
  induction rel with
  | nil => intro l h; simpa [pickFold] using h
  | cons t ts ih =>
    intro l h
    show (pickFold pick ts (if pick t = "" then l else insertNew (pick t) l)).Nodup
    apply ih
    by_cases hc : pick t = ""
    · simpa [hc] using h
    · simpa [hc] using nodup_insertNew (pick t) h

lemma length_eq_dedup_length {l1 l2 : List String} (h1 : l1.Nodup)
    (h2 : ∀ c, c ∈ l1 ↔ c ∈ l2) : l1.length = l2.dedup.length := by
  have ht : l1.toFinset = l2.toFinset := by
    ext c
    simp [List.mem_toFinset, h2 c]
  calc l1.length = l1.toFinset.card := (List.toFinset_card_of_nodup h1).symm
    _ = l2.toFinset.card := by rw [ht]
    _ = l2.dedup.length := List.card_toFinset _

/-! ## Maximum of a list, as computed by the peak-day selector -/

lemma le_foldl_max :
    ∀ (xs : List ℚ) (x : ℚ), x ≤ xs.foldl max x ∧ ∀ a ∈ xs, a ≤ xs.foldl max x := by
  intro xs
  induction xs with
  | nil => intro x; exact ⟨le_refl x, by simp⟩
  | cons y ys ih =>
    intro x
    simp only [List.foldl_cons]
    obtain ⟨h1, h2⟩ := ih (max x y)
    refine ⟨le_trans (le_max_left x y) h1, ?_⟩
    intro a ha
    rcases List.mem_cons.mp ha with rfl | ha2
    · exact le_trans (le_max_right x a) h1
    · exact h2 a ha2

lemma foldl_max_mem :
    ∀ (xs : List ℚ) (x : ℚ), xs.foldl max x = x ∨ xs.foldl max x ∈ xs := by
  intro xs
  induction xs with
  | nil => intro x; exact Or.inl rfl
  | cons y ys ih =>
    intro x
    simp only [List.foldl_cons]
    rcases ih (max x y) with h | h
    · rcases max_choice x y with hx | hy
      · exact Or.inl (by rw [h, hx])
      · exact Or.inr (by rw [h, hy]; exact List.mem_cons_self y ys)
    · exact Or.inr (List.mem_cons_of_mem y h)

lemma listMax_mem {l : List ℚ} (h : l ≠ []) : listMax l ∈ l := by
  cases l with
  | nil => exact absurd rfl h
  | cons x xs =>
    rcases foldl_max_mem xs x with h2 | h2
    · exact List.mem_cons.mpr (Or.inl (by rw [listMax, h2]))
    · exact List.mem_cons_of_mem x (by rw [listMax]; exact h2)

lemma le_listMax {l : List ℚ} {a : ℚ} (h : a ∈ l) : a ≤ listMax l := by
  cases l with
  | nil => simp at h
  | cons x xs =>
    rcases List.mem_cons.mp h with rfl | h2
    · exact (le_foldl_max xs a).1
    · exact (le_foldl_max xs x).2 a h2

/-! ## Membership characterizations of the aggregator results -/

lemma mem_region_wise_sales (txs : List Tx) (k : String) (st : RegionStat) :
    (k, st) ∈ region_wise_sales txs ↔
      (regionRel k txs ≠ [] ∧
        st = regionStatOf (grandSum txs) (regionSum k txs, (regionRel k txs).length)) := by
  have hgt : (txs.foldl (fun g t => if condOk t then g + amt t else g) 0) = grandSum txs := by
    simpa using revenue_foldl txs 0
  simp only [region_wise_sales]
  rw [hgt, mem_map_sort_groupFold condOk regionKey addReg (0, 0) descBySales
    (regionStatOf (grandSum txs)) txs k st, applyRel_addReg]
  simp [regionRel, regionSum, zero_add]

lemma mem_customer_analysis (txs : List Tx) (cid : String) (st : CustStat) :
    (cid, st) ∈ customer_analysis txs ↔
      (custRel cid txs ≠ [] ∧
        st = custStatOf (custSpent cid txs, (custRel cid txs).length,
          pickFold prodKey (custRel cid txs) [])) := by
  simp only [customer_analysis]
  rw [mem_map_sort_groupFold condCust custKey (addSpend prodKey) (0, 0, []) descBySpent
    custStatOf txs cid st, applyRel_addSpend]
  simp [custRel, custSpent, zero_add]

lemma mem_daily_sales_trend (txs : List Tx) (dt : String) (st : DayStat) :
    (dt, st) ∈ daily_sales_trend txs ↔
      (dayRel dt txs ≠ [] ∧
        st = dayStatOf (daySum dt txs, (dayRel dt txs).length,
          pickFold custKey (dayRel dt txs) [])) := by
  simp only [daily_sales_trend]
  rw [List.mem_map]
  constructor
  · rintro ⟨d, hd, heq⟩
    obtain ⟨hdk, hst⟩ : d = dt ∧
        dayStatOf ((lookupV d (groupFold condDay dayKey (addSpend custKey)
          (0, 0, []) txs)).getD (0, 0, [])) = st := by
      simpa [Prod.mk.injEq] using heq
    rw [hdk] at hd hst
    have hd2 : dt ∈ (groupFold condDay dayKey (addSpend custKey) (0, 0, []) txs).map
        Prod.fst := (List.perm_insertionSort _ _).mem_iff.mp hd
    have hlk := lookupV_groupFold condDay dayKey (addSpend custKey) (0, 0, []) txs dt
    by_cases hrel : gRel condDay dayKey dt txs = []
    · rw [if_pos hrel] at hlk
      exact absurd hd2 ((lookupV_eq_none dt _).mp hlk)
    · have hrel2 : dayRel dt txs ≠ [] := by simpa [dayRel] using hrel
      refine ⟨hrel2, ?_⟩
      rw [hlk, if_neg hrel] at hst
      rw [← hst, applyRel_addSpend]
      simp [daySum, dayRel, zero_add]
  · rintro ⟨hrel, rfl⟩
    have hrel2 : gRel condDay dayKey dt txs ≠ [] := by simpa [dayRel] using hrel
    have hlk := lookupV_groupFold condDay dayKey (addSpend custKey) (0, 0, []) txs dt
    rw [if_neg hrel2] at hlk
    refine ⟨dt, ?_, ?_⟩
    · apply (List.perm_insertionSort _ _).mem_iff.mpr
      by_contra hmem
      have hnone := (lookupV_eq_none dt _).mpr hmem
      rw [hnone] at hlk
      exact Option.noConfusion hlk
    · rw [hlk]
      simp [applyRel_addSpend, daySum, dayRel, zero_add]

lemma trend_keys (txs : List Tx) :
    (daily_sales_trend txs).map Prod.fst
      = List.insertionSort (fun a b : String => a ≤ b)
          ((groupFold condDay dayKey (addSpend custKey) (0, 0, []) txs).map Prod.fst) := by
  simp only [daily_sales_trend, List.map_map]
  exact List.map_id' _

lemma trend_keys_sorted (txs : List Tx) :
    ((daily_sales_trend txs).map Prod.fst).Pairwise (fun a b : String => a ≤ b) := by
  rw [trend_keys]
  exact List.sorted_insertionSort _ _

lemma trend_keys_nodup (txs : List Tx) :
    ((daily_sales_trend txs).map Prod.fst).Nodup := by
  rw [trend_keys]
  exact ((List.perm_insertionSort _ _).nodup_iff).mpr
    (nodup_fst_groupFold condDay dayKey (addSpend custKey) (0, 0, []) txs)

/-! ## Peak-day selection -/

lemma peakFromTrend_props (trend : List (String × DayStat))
    (hnd : (trend.map Prod.fst).Nodup) (hne : trend ≠ []) :
    ∃ st : DayStat,
      ((peakFromTrend trend).1, st) ∈ trend
      ∧ (peakFromTrend trend).2.1 = st.revenue
      ∧ (peakFromTrend trend).2.2 = st.transaction_count
      ∧ (∀ d stB, (d, stB) ∈ trend → stB.revenue ≤ st.revenue)
      ∧ (∀ d stB, (d, stB) ∈ trend → stB.revenue = st.revenue
          → (peakFromTrend trend).1 ≤ d) := by
  have hEmpty : trend.isEmpty = false := by
    cases htr : trend with
    | nil => exact absurd htr hne
    | cons a l => rfl
  set M := listMax (trend.map (fun kv => kv.2.revenue)) with hM
  set C := (trend.filter (fun kv => kv.2.revenue == M)).map Prod.fst with hC
  set S := List.insertionSort (fun a b : String => a ≤ b) C with hS
  have hMmem : M ∈ trend.map (fun kv => kv.2.revenue) := by
    rw [hM]
    apply listMax_mem
    intro hmapnil
    exact hne (List.map_eq_nil_iff.mp hmapnil)
  obtain ⟨kv1, hkv1, hkv1M⟩ := List.mem_map.mp hMmem
  have hCne : C ≠ [] := by
    have hmem : kv1.1 ∈ C := by
      rw [hC]
      apply List.mem_map_of_mem
      rw [List.mem_filter]
      exact ⟨hkv1, by rw [hkv1M]; exact beq_self_eq_true M⟩
    intro h0
    rw [h0] at hmem
    simp at hmem
  have hSlen : S.length = C.length := by
    rw [hS]
    exact List.length_insertionSort _ _
  obtain ⟨b, S', hScons⟩ : ∃ b S', S = b :: S' := by
    cases hS2 : S with
    | nil =>
      rw [hS2] at hSlen
      exact absurd (List.length_eq_zero.mp hSlen.symm) hCne
    | cons b S' => exact ⟨b, S', rfl⟩
  have hbS : b ∈ S := hScons ▸ List.mem_cons_self b S'
  have hbC : b ∈ C := by
    have hp := List.perm_insertionSort (fun a b : String => a ≤ b) C
    rw [hS] at hbS
    exact hp.mem_iff.mp hbS
  rw [hC] at hbC
  obtain ⟨⟨x, y⟩, hxyF, hxy1⟩ := List.mem_map.mp hbC
  have hxb : x = b := hxy1
  rw [List.mem_filter] at hxyF
  obtain ⟨hxyT, hxyM⟩ := hxyF
  have hyM : y.revenue = M := by simpa using hxyM
  have hbT : (b, y) ∈ trend := by
    rw [← hxb]
    exact hxyT
  have hlkb : lookupV b trend = some y := (mem_iff_lookupV hnd b y).mp hbT
  have hSsorted : S.Pairwise (fun a b : String => a ≤ b) := by
    rw [hS]
    exact List.sorted_insertionSort _ _
  have hbmin : ∀ d ∈ S, b ≤ d := by
    intro d hd
    rw [hScons] at hd hSsorted
    rcases List.mem_cons.mp hd with rfl | hd2
    · exact le_refl d
    · exact (List.pairwise_cons.mp hSsorted).1 d hd2
  have hfp : peakFromTrend trend = (b, y.revenue, y.transaction_count) := by
    simp only [peakFromTrend, hEmpty, Bool.false_eq_true, if_false, ← hM, ← hC, ← hS,
      hScons, List.headD_cons, hlkb, Option.getD_some]
  refine ⟨y, ?_, ?_, ?_, ?_, ?_⟩
  · rw [hfp]
    exact hbT
  · rw [hfp]
  · rw [hfp]
  · intro d stB hmem
    rw [hyM, hM]
    exact le_listMax (List.mem_map_of_mem (fun kv => kv.2.revenue) hmem)
  · intro d stB hmem hrev
    rw [hfp]
    have hdC : d ∈ C := by
      rw [hC]
      have : (d, stB) ∈ trend.filter (fun kv => kv.2.revenue == M) := by
        rw [List.mem_filter]
        refine ⟨hmem, ?_⟩
        have : stB.revenue = M := by rw [hrev, hyM]
        simpa using this
      exact List.mem_map_of_mem Prod.fst this
    apply hbmin
    rw [hS]
    exact (List.perm_insertionSort (fun a b : String => a ≤ b) C).mem_iff.mpr hdC

/-! ## Claims -/

/-- C1, counterexample: on the single record with `Quantity = -1` (an `int`
that is not a positive integer) and `UnitPrice = 2`, `calculate_total_revenue`
returns `-2`, which is negative; the claim says such a record is skipped
(sum over positive-quantity records would be `0`) and that the result is
always non-negative. -/
theorem C1_revenue_counterexample :
    calculate_total_revenue [mkTx "2024-01-01" "Widget" "C1" "North" (some (-1)) (some 2)]
        = -2
      ∧ ((-2 : ℚ) < 0) := by
  constructor
  · with_unfolding_all rfl
  · norm_num

/-- C1, amended: for every sequence of transaction records,
`calculate_total_revenue` returns the sum of `Quantity × UnitPrice` over
exactly those records whose `Quantity` is an integer (of any sign) and whose
`UnitPrice` is numeric; records failing this type contract are silently
skipped and never cause an error. -/
theorem C1_revenue_amended (txs : List Tx) :
    calculate_total_revenue txs = ((txs.filter condOk).map amt).sum :=
  calculate_total_revenue_eq txs

/-- C2: the sum of `total_sales` over all region buckets returned by
`region_wise_sales` equals `calculate_total_revenue` on the same records
within 2-decimal rounding tolerance: each bucket is rounded to a multiple
of 1/100, so the difference is at most half a cent per bucket. -/
theorem C2_region_sum_matches_revenue (txs : List Tx) :
    |((region_wise_sales txs).map (fun kv => kv.2.total_sales)).sum
        - calculate_total_revenue txs|
      ≤ ((region_wise_sales txs).length : ℚ) * (1 / 200) := by
  have hgt : (txs.foldl (fun g t => if condOk t then g + amt t else g) 0) = grandSum txs := by
    simpa using revenue_foldl txs 0
  have hrw : region_wise_sales txs
      = (List.insertionSort descBySales (groupFold condOk regionKey addReg (0, 0) txs)).map
          (fun kv => (kv.1, regionStatOf (grandSum txs) kv.2)) := by
    simp only [region_wise_sales, hgt]
  have hfun : ∀ (l : List (String × ℚ × ℕ)),
      (l.map (fun kv => (kv.1, regionStatOf (grandSum txs) kv.2))).map
          (fun kv => kv.2.total_sales)
        = l.map (fun kv => round2 kv.2.1) := by
    intro l
    rw [List.map_map]
    rfl
  have hperm := (List.perm_insertionSort descBySales
    (groupFold condOk regionKey addReg (0, 0) txs)).map (fun kv => round2 kv.2.1)
  have hmm : (groupFold condOk regionKey addReg (0, 0) txs).map (fun kv => round2 kv.2.1)
      = ((groupFold condOk regionKey addReg (0, 0) txs).map (fun kv => kv.2.1)).map round2 := by
    rw [List.map_map]
    rfl
  have hsum : ((groupFold condOk regionKey addReg (0, 0) txs).map (fun kv => kv.2.1)).sum
      = grandSum txs := by
    have h := sum_fst_foldl_addReg txs []
    simpa [groupFold] using h
  have hlen2 : ((List.insertionSort descBySales
        (groupFold condOk regionKey addReg (0, 0) txs)).map
          (fun kv => (kv.1, regionStatOf (grandSum txs) kv.2))).length
      = ((groupFold condOk regionKey addReg (0, 0) txs).map (fun kv => kv.2.1)).length := by
    simp [List.length_insertionSort]
  rw [hrw, hfun, hperm.sum_eq, hmm, calculate_total_revenue_eq, hlen2, ← hsum]
  exact sum_round2_sub _

/-- C5: on the empty input every aggregator and selector returns an empty
result (`0` revenue, empty lists) and `find_peak_sales_day` returns the
sentinel triple `("", 0.0, 0)`; none of them raises an exception. -/
theorem C5_empty_inputs :
    calculate_total_revenue [] = 0
      ∧ region_wise_sales [] = []
      ∧ (∀ n : ℕ, top_selling_products [] n = [])
      ∧ customer_analysis [] = []
      ∧ daily_sales_trend [] = []
      ∧ (∀ threshold : ℤ, low_performing_products [] threshold = [])
      ∧ find_peak_sales_day [] = ("", 0, 0) := by
  refine ⟨rfl, rfl, ?_, rfl, rfl, ?_, rfl⟩
  · intro n
    simp [top_selling_products, groupFold]
  · intro threshold
    simp [low_performing_products, groupFold]

/-- C3, counterexample: on the single record with `Quantity = -1`,
`UnitPrice = 2`, `Region = "North"`, the filtered grand total is `-2`
(non-zero), so the claimed formula gives `100 * (-2) / (-2) = 100`, but the
code reports a percentage of `0` because its guard is `grand_total > 0`, not
`grand_total ≠ 0`. -/
theorem C3_percentage_counterexample :
    region_wise_sales [mkTx "2024-01-01" "Widget" "C1" "North" (some (-1)) (some 2)]
        = [("North", ⟨-2, 1, 0⟩)]
      ∧ (100 * (-2 : ℚ) / (-2) = 100)
      ∧ ((0 : ℚ) ≠ 100) := by
  refine ⟨by with_unfolding_all rfl, by norm_num, by norm_num⟩

/-- C3, amended: `region_wise_sales` computes each region's percentage as
`round2 (100 * group_total / grand_total)` when the grand total over the same
filtered record set is strictly positive, and as `0` for every region when
the grand total is zero or negative (so in particular a zero grand total
yields `0` with no division-by-zero fault); monetary outputs are rounded to
2 decimals only at result construction, with sums taken over unrounded
amounts. -/
theorem C3_region_percentage_amended (txs : List Tx) (k : String) (st : RegionStat)
    (h : (k, st) ∈ region_wise_sales txs) :
    st.total_sales = round2 (regionSum k txs)
      ∧ st.transaction_count = (regionRel k txs).length
      ∧ st.percentage
          = (if 0 < grandSum txs then round2 (regionSum k txs / grandSum txs * 100) else 0)
      ∧ (grandSum txs = 0 → st.percentage = 0) := by
  obtain ⟨hne, hst⟩ := (mem_region_wise_sales txs k st).mp h
  subst hst
  refine ⟨rfl, rfl, ?_, ?_⟩
  · simp only [regionStatOf]
    by_cases hg : 0 < grandSum txs
    · rw [if_pos hg, if_pos hg]
    · rw [if_neg hg, if_neg hg, round2_zero]
  · intro h0
    simp only [regionStatOf]
    rw [h0]
    norm_num [round2_zero]

/-- C9: a record whose (stripped) `Region` is empty is preserved in an
explicit empty-string bucket of `region_wise_sales`, with its sales and
count aggregated there, rather than being dropped. -/
theorem C9_blank_region_bucket (txs : List Tx) (t : Tx) (h1 : t ∈ txs)
    (h2 : condOk t = true) (h3 : t.Region.trim = "") :
    ∃ st : RegionStat, ("", st) ∈ region_wise_sales txs
      ∧ st.total_sales = round2 (regionSum "" txs)
      ∧ st.transaction_count = (regionRel "" txs).length
      ∧ 0 < st.transaction_count := by
  have hrel : t ∈ regionRel "" txs := by
    simp [regionRel, gRel, List.mem_filter, h1, h2, regionKey, h3]
  have hne : regionRel "" txs ≠ [] := fun hemp => by simp [hemp] at hrel
  refine ⟨regionStatOf (grandSum txs) (regionSum "" txs, (regionRel "" txs).length),
    (mem_region_wise_sales txs "" _).mpr ⟨hne, rfl⟩, rfl, rfl, ?_⟩
  exact List.length_pos.mpr hne

/-- C6: `low_performing_products` returns exactly the product groups whose
total summed quantity is strictly below the threshold (a product with total
quantity exactly equal to the threshold is excluded by the strict
comparison), sorted ascending by total quantity. -/
theorem C6_low_performing (txs : List Tx) (threshold : ℤ) :
    (∀ (nm : String) (q : ℤ) (rev : ℚ),
        ((nm, q, rev) ∈ low_performing_products txs threshold)
          ↔ (prodRel nm txs ≠ [] ∧ q = prodQty nm txs ∧ rev = round2 (prodRev nm txs)
              ∧ q < threshold))
      ∧ (low_performing_products txs threshold).Pairwise
          (fun a b : String × ℤ × ℚ => a.2.1 ≤ b.2.1) := by
  constructor
  · intro nm q rev
    simp only [low_performing_products]
    rw [List.mem_insertionSort, List.mem_map]
    constructor
    · rintro ⟨⟨nm', v⟩, hmem, heq⟩
      rw [List.mem_filter] at hmem
      obtain ⟨hmem2, hlt⟩ := hmem
      obtain ⟨h1, h2, h3⟩ : nm' = nm ∧ v.1 = q ∧ round2 v.2 = rev := by
        simpa [Prod.mk.injEq] using heq
      have hl : lookupV nm' (groupFold condProd prodKey addProd (0, 0) txs) = some v :=
        (mem_iff_lookupV (nodup_fst_groupFold condProd prodKey addProd (0, 0) txs)
          nm' v).mp hmem2
      rw [lookupV_groupFold, h1] at hl
      by_cases hrel : gRel condProd prodKey nm txs = []
      · simp [hrel] at hl
      · simp only [if_neg hrel, Option.some.injEq] at hl
        rw [applyRel_addProd] at hl
        refine ⟨by simpa [prodRel] using hrel, ?_, ?_, ?_⟩
        · rw [← h2, ← hl]
          simp [prodQty, prodRel]
        · rw [← h3, ← hl]
          simp [prodRev, prodRel]
        · rw [← h2]
          simpa using hlt
    · rintro ⟨hrel, hq, hrev, hlt⟩
      have hrel2 : gRel condProd prodKey nm txs ≠ [] := by simpa [prodRel] using hrel
      have hl : lookupV nm (groupFold condProd prodKey addProd (0, 0) txs)
          = some (applyRel addProd (gRel condProd prodKey nm txs) (0, 0)) := by
        rw [lookupV_groupFold, if_neg hrel2]
      refine ⟨(nm, applyRel addProd (gRel condProd prodKey nm txs) (0, 0)), ?_, ?_⟩
      · rw [List.mem_filter]
        refine ⟨(mem_iff_lookupV (nodup_fst_groupFold condProd prodKey addProd (0, 0) txs)
          nm _).mpr hl, ?_⟩
        rw [applyRel_addProd]
        have hlt2 : prodQty nm txs < threshold := hq ▸ hlt
        simp only [prodQty, prodRel] at hlt2
        simpa using hlt2
      · rw [applyRel_addProd]
        simp [Prod.mk.injEq, hq, hrev, prodQty, prodRev, prodRel]
  · exact List.sorted_insertionSort ascByQty _

/-- C7: for every customer key in the result of `customer_analysis`, the
purchase count is positive, `avg_order_value` is the (2-decimal-rounded)
quotient of the unrounded total spent by the purchase count (the guard to 0
for a zero count can never fire for a present key), and `products_bought`
is the list of distinct product names bought by that customer, sorted in
ascending case-sensitive string order. -/
theorem C7_customer_analysis (txs : List Tx) (cid : String) (st : CustStat)
    (h : (cid, st) ∈ customer_analysis txs) :
    0 < st.purchase_count
      ∧ st.purchase_count = (custRel cid txs).length
      ∧ st.total_spent = round2 (custSpent cid txs)
      ∧ st.avg_order_value = round2 (custSpent cid txs / (st.purchase_count : ℚ))
      ∧ st.products_bought.Pairwise (fun a b : String => a ≤ b)
      ∧ st.products_bought.Nodup
      ∧ (∀ p : String, p ∈ st.products_bought
          ↔ (p ≠ "" ∧ ∃ t ∈ custRel cid txs, t.ProductName = p)) := by
  obtain ⟨hne, hst⟩ := (mem_customer_analysis txs cid st).mp h
  subst hst
  have hlen : 0 < (custRel cid txs).length := List.length_pos.mpr hne
  refine ⟨hlen, rfl, rfl, ?_, ?_, ?_, ?_⟩
  · simp only [custStatOf]
    rw [if_pos hlen]
  · simp only [custStatOf]
    exact List.sorted_insertionSort _ _
  · simp only [custStatOf]
    exact ((List.perm_insertionSort _ _).nodup_iff).mpr
      (nodup_pickFold prodKey _ [] List.nodup_nil)
  · intro p
    simp only [custStatOf]
    rw [List.mem_insertionSort, mem_pickFold]
    simp [prodKey]

/-- C8: every row of `daily_sales_trend` carries the (rounded) revenue sum,
the transaction count, and the number of distinct non-empty customer ids of
the records of its date, and the rows are emitted in ascending date-string
order. -/
theorem C8_daily_trend (txs : List Tx) (dt : String) (st : DayStat)
    (h : (dt, st) ∈ daily_sales_trend txs) :
    st.revenue = round2 (daySum dt txs)
      ∧ st.transaction_count = (dayRel dt txs).length
      ∧ st.unique_customers = (dayCids dt txs).dedup.length
      ∧ ((daily_sales_trend txs).map Prod.fst).Pairwise (fun a b : String => a ≤ b) := by
  obtain ⟨hne, hst⟩ := (mem_daily_sales_trend txs dt st).mp h
  subst hst
  refine ⟨rfl, rfl, ?_, trend_keys_sorted txs⟩
  simp only [dayStatOf]
  apply length_eq_dedup_length
  · exact nodup_pickFold custKey _ [] List.nodup_nil
  · intro c
    rw [mem_pickFold]
    simp only [dayCids, List.mem_filter, List.mem_map, List.not_mem_nil, false_or,
      bne_iff_ne, ne_eq]
    constructor
    · rintro ⟨hc, t, ht, hpt⟩
      exact ⟨⟨t, ht, hpt⟩, hc⟩
    · rintro ⟨⟨t, ht, hpt⟩, hc⟩
      exact ⟨hc, t, ht, hpt⟩

/-- C4: for a non-empty sequence of well-typed records (integer quantity,
numeric price, non-empty date — exactly the records `daily_sales_trend`
keeps), `find_peak_sales_day` returns a date of the trend together with that
date's revenue and transaction count; its revenue is maximal over all days,
and among days tying for the maximal revenue it is the lexicographically
(chronologically) smallest date. -/
theorem C4_peak_day (txs : List Tx) (h1 : txs ≠ [])
    (h2 : ∀ t ∈ txs, condDay t = true) :
    ∃ st : DayStat,
      ((find_peak_sales_day txs).1, st) ∈ daily_sales_trend txs
      ∧ (find_peak_sales_day txs).2.1 = st.revenue
      ∧ (find_peak_sales_day txs).2.2 = st.transaction_count
      ∧ (∀ d stB, (d, stB) ∈ daily_sales_trend txs → stB.revenue ≤ st.revenue)
      ∧ (∀ d stB, (d, stB) ∈ daily_sales_trend txs → stB.revenue = st.revenue
          → (find_peak_sales_day txs).1 ≤ d) := by
  have htne : daily_sales_trend txs ≠ [] := by
    cases txs with
    | nil => exact absurd rfl h1
    | cons t0 ts0 =>
      have ht0 : condDay t0 = true := h2 t0 (List.mem_cons_self t0 ts0)
      have hrel0 : t0 ∈ dayRel t0.Date (t0 :: ts0) := by
        simp [dayRel, gRel, List.mem_filter, ht0, dayKey]
      have hne0 : dayRel t0.Date (t0 :: ts0) ≠ [] := fun he => by simp [he] at hrel0
      have hmem0 := (mem_daily_sales_trend (t0 :: ts0) t0.Date _).mpr ⟨hne0, rfl⟩
      exact fun he => by simp [he] at hmem0
  exact peakFromTrend_props (daily_sales_trend txs) (trend_keys_nodup txs) htne

lemma foldl_gStep_filter {V : Type} (cond : Tx → Bool) (key : Tx → String)
    (add : Tx → V → V) (dflt : V) (p : Tx → Bool) (hp : ∀ t, cond t = true → p t = true) :
    ∀ (txs : List Tx) (init : List (String × V)),
      (txs.filter p).foldl (gStep cond key add dflt) init
        = txs.foldl (gStep cond key add dflt) init := by
  intro txs
  induction txs with
  | nil => intro init; rfl
  | cons t ts ih =>
    intro init
    by_cases hpt : p t = true
    · rw [List.filter_cons_of_pos hpt]
      simp only [List.foldl_cons]
      exact ih _
    · have hct : cond t = false := by
        cases hc : cond t
        · rfl
        · exact absurd (hp t hc) hpt
      rw [List.filter_cons_of_neg (by simpa using hpt)]
      simp only [List.foldl_cons]
      rw [ih]
      have hid : gStep cond key add dflt init t = init := by
        simp [gStep, hct]
      rw [hid]

lemma groupFold_filter {V : Type} (cond : Tx → Bool) (key : Tx → String)
    (add : Tx → V → V) (dflt : V) (p : Tx → Bool)
    (hp : ∀ t, cond t = true → p t = true) (txs : List Tx) :
    groupFold cond key add dflt (txs.filter p) = groupFold cond key add dflt txs :=
  foldl_gStep_filter cond key add dflt p hp txs []

lemma condProd_imp_pname {t : Tx} (h : condProd t = true) :
    (t.ProductName != "") = true := by
  have h2 : ((t.ProductName != "") && condOk t) = true := h
  have h3 : (t.ProductName != "") = true ∧ condOk t = true := by simpa using h2
  exact h3.1

lemma condCust_imp_cid {t : Tx} (h : condCust t = true) :
    (t.CustomerID != "") = true := by
  have h2 : ((t.CustomerID != "") && condOk t) = true := h
  have h3 : (t.CustomerID != "") = true ∧ condOk t = true := by simpa using h2
  exact h3.1

lemma condDay_imp_date {t : Tx} (h : condDay t = true) :
    (t.Date != "") = true := by
  have h2 : ((t.Date != "") && condOk t) = true := h
  have h3 : (t.Date != "") = true ∧ condOk t = true := by simpa using h2
  exact h3.1

/-- C10: records whose grouping key is the empty string are silently
excluded from the corresponding aggregate — dropping them from the input
does not change `top_selling_products`, `low_performing_products`
(empty `ProductName`), `customer_analysis` (empty `CustomerID`), or
`daily_sales_trend` (empty `Date`) — yet any well-typed record, in
particular one with all these keys empty, still contributes its amount to
`calculate_total_revenue` and to its region bucket of `region_wise_sales`. -/
theorem C10_empty_key_records (txs : List Tx) (n : ℕ) (threshold : ℤ) (t : Tx)
    (hOk : condOk t = true) :
    top_selling_products (txs.filter (fun u => u.ProductName != "")) n
        = top_selling_products txs n
      ∧ low_performing_products (txs.filter (fun u => u.ProductName != "")) threshold
          = low_performing_products txs threshold
      ∧ customer_analysis (txs.filter (fun u => u.CustomerID != ""))
          = customer_analysis txs
      ∧ daily_sales_trend (txs.filter (fun u => u.Date != ""))
          = daily_sales_trend txs
      ∧ calculate_total_revenue (t :: txs) = amt t + calculate_total_revenue txs
      ∧ ∃ st : RegionStat, (t.Region.trim, st) ∈ region_wise_sales (t :: txs)
          ∧ st.transaction_count = (regionRel t.Region.trim (t :: txs)).length
          ∧ 0 < st.transaction_count := by
  refine ⟨?_, ?_, ?_, ?_, ?_, ?_⟩
  · simp only [top_selling_products,
      groupFold_filter condProd prodKey addProd (0, 0)
        (fun u => u.ProductName != "") (fun u hu => condProd_imp_pname hu) txs]
  · simp only [low_performing_products,
      groupFold_filter condProd prodKey addProd (0, 0)
        (fun u => u.ProductName != "") (fun u hu => condProd_imp_pname hu) txs]
  · simp only [customer_analysis,
      groupFold_filter condCust custKey (addSpend prodKey) (0, 0, [])
        (fun u => u.CustomerID != "") (fun u hu => condCust_imp_cid hu) txs]
  · simp only [daily_sales_trend,
      groupFold_filter condDay dayKey (addSpend custKey) (0, 0, [])
        (fun u => u.Date != "") (fun u hu => condDay_imp_date hu) txs]
  · rw [calculate_total_revenue_eq, calculate_total_revenue_eq]
    simp [grandSum, List.filter_cons, hOk]
  · have hrel : t ∈ regionRel t.Region.trim (t :: txs) := by
      simp [regionRel, gRel, List.mem_filter, hOk, regionKey]
    have hne : regionRel t.Region.trim (t :: txs) ≠ [] := fun he => by simp [he] at hrel
    exact ⟨regionStatOf (grandSum (t :: txs))
        (regionSum t.Region.trim (t :: txs), (regionRel t.Region.trim (t :: txs)).length),
      (mem_region_wise_sales (t :: txs) t.Region.trim _).mpr ⟨hne, rfl⟩, rfl,
      List.length_pos.mpr hne⟩

/-! ## Witnesses: the hypothesis-bearing claim theorems at concrete inputs -/

/-- C3 witness: the amended percentage theorem at a concrete two-region input
(North 20 of 40 is 50 percent). -/
theorem C3_region_percentage_witness :
    (⟨20, 1, 50⟩ : RegionStat).total_sales = round2 (regionSum "North" txsW)
      ∧ (⟨20, 1, 50⟩ : RegionStat).transaction_count = (regionRel "North" txsW).length
      ∧ (⟨20, 1, 50⟩ : RegionStat).percentage
          = (if 0 < grandSum txsW then round2 (regionSum "North" txsW / grandSum txsW * 100)
              else 0)
      ∧ (grandSum txsW = 0 → (⟨20, 1, 50⟩ : RegionStat).percentage = 0) :=
  C3_region_percentage_amended txsW "North" ⟨20, 1, 50⟩ (by
    have h : region_wise_sales txsW
        = [("North", ⟨20, 1, 50⟩), ("South", ⟨20, 1, 50⟩)] := by with_unfolding_all rfl
    rw [h]
    simp)

/-- C4 witness: the peak-day theorem at a concrete input where days
2024-01-05 and 2024-01-02 tie at revenue 500. -/
theorem C4_peak_day_witness :
    ∃ st : DayStat,
      ((find_peak_sales_day txsP).1, st) ∈ daily_sales_trend txsP
      ∧ (find_peak_sales_day txsP).2.1 = st.revenue
      ∧ (find_peak_sales_day txsP).2.2 = st.transaction_count
      ∧ (∀ d stB, (d, stB) ∈ daily_sales_trend txsP → stB.revenue ≤ st.revenue)
      ∧ (∀ d stB, (d, stB) ∈ daily_sales_trend txsP → stB.revenue = st.revenue
          → (find_peak_sales_day txsP).1 ≤ d) :=
  C4_peak_day txsP (by simp [txsP]) (by decide)

/-- C7 witness: the customer-analysis theorem at a concrete input for
customer C1 (one purchase of 20, one product). -/
theorem C7_customer_analysis_witness :
    0 < (⟨20, 1, 20, ["Widget"]⟩ : CustStat).purchase_count
      ∧ (⟨20, 1, 20, ["Widget"]⟩ : CustStat).purchase_count = (custRel "C1" txsW).length
      ∧ (⟨20, 1, 20, ["Widget"]⟩ : CustStat).total_spent = round2 (custSpent "C1" txsW)
      ∧ (⟨20, 1, 20, ["Widget"]⟩ : CustStat).avg_order_value
          = round2 (custSpent "C1" txsW
              / (((⟨20, 1, 20, ["Widget"]⟩ : CustStat).purchase_count : ℕ) : ℚ))
      ∧ (⟨20, 1, 20, ["Widget"]⟩ : CustStat).products_bought.Pairwise
          (fun a b : String => a ≤ b)
      ∧ (⟨20, 1, 20, ["Widget"]⟩ : CustStat).products_bought.Nodup
      ∧ (∀ p : String, p ∈ (⟨20, 1, 20, ["Widget"]⟩ : CustStat).products_bought
          ↔ (p ≠ "" ∧ ∃ t ∈ custRel "C1" txsW, t.ProductName = p)) :=
  C7_customer_analysis txsW "C1" ⟨20, 1, 20, ["Widget"]⟩ (by
    have h : customer_analysis txsW
        = [("C1", ⟨20, 1, 20, ["Widget"]⟩), ("C2", ⟨20, 1, 20, ["Widget"]⟩)] := by
      with_unfolding_all rfl
    rw [h]
    simp)

/-- C8 witness: the daily-trend theorem at a concrete one-day input
(two transactions, two distinct customers, revenue 40). -/
theorem C8_daily_trend_witness :
    (⟨40, 2, 2⟩ : DayStat).revenue = round2 (daySum "2024-01-01" txsW)
      ∧ (⟨40, 2, 2⟩ : DayStat).transaction_count = (dayRel "2024-01-01" txsW).length
      ∧ (⟨40, 2, 2⟩ : DayStat).unique_customers = (dayCids "2024-01-01" txsW).dedup.length
      ∧ ((daily_sales_trend txsW).map Prod.fst).Pairwise (fun a b : String => a ≤ b) :=
  C8_daily_trend txsW "2024-01-01" ⟨40, 2, 2⟩ (by
    have h : daily_sales_trend txsW = [("2024-01-01", ⟨40, 2, 2⟩)] := by
      with_unfolding_all rfl
    rw [h]
    simp)

/-- C9 witness: the blank-region theorem at a one-record input whose region
is two spaces. -/
theorem C9_blank_region_witness :
    ∃ st : RegionStat, ("", st) ∈ region_wise_sales [txR]
      ∧ st.total_sales = round2 (regionSum "" [txR])
      ∧ st.transaction_count = (regionRel "" [txR]).length
      ∧ 0 < st.transaction_count :=
  C9_blank_region_bucket [txR] txR (by simp) (by decide) (by with_unfolding_all rfl)

/-- C10 witness: the empty-key theorem at a concrete input, with an extra
well-typed record whose product, customer, date and region keys are all
empty. -/
theorem C10_empty_key_records_witness :
    top_selling_products (txsW.filter (fun u => u.ProductName != "")) 5
        = top_selling_products txsW 5
      ∧ low_performing_products (txsW.filter (fun u => u.ProductName != "")) 10
          = low_performing_products txsW 10
      ∧ customer_analysis (txsW.filter (fun u => u.CustomerID != ""))
          = customer_analysis txsW
      ∧ daily_sales_trend (txsW.filter (fun u => u.Date != ""))
          = daily_sales_trend txsW
      ∧ calculate_total_revenue (t10 :: txsW) = amt t10 + calculate_total_revenue txsW
      ∧ ∃ st : RegionStat, (t10.Region.trim, st) ∈ region_wise_sales (t10 :: txsW)
          ∧ st.transaction_count = (regionRel t10.Region.trim (t10 :: txsW)).length
          ∧ 0 < st.transaction_count :=
  C10_empty_key_records txsW 5 10 t10 (by decide)

end SalesAnalytics
